import Mathlib

/-!
Verification of the Product CRUD service.

The request handlers are translated from `service/routes.py`.  The record
layer (`service.models`) is not part of the sources; its operations are
modelled from the specification, as indicated on each definition.

Decimal values (Python `decimal.Decimal`) are embedded as an integer
mantissa together with a scale: `Dec.mk m s` denotes `m / 10 ^ s`.
-/

/-- A decimal number: `mantissa / 10 ^ scale`.  Models Python `Decimal`
values as stored on a `Product` (the spec: price is a decimal stored with a
fixed scale and serialized as its decimal text form). -/
structure Dec where
  mantissa : Int
  scale : Nat
deriving DecidableEq, Repr

/-- The character for one decimal digit (`0 ≤ n < 10`). -/
def digitChar (n : Nat) : Char :=
  Char.ofNat (48 + n)

/-- The decimal digit denoted by one character, if any. -/
def charDigit (c : Char) : Option Nat :=
  if 48 ≤ c.toNat ∧ c.toNat ≤ 57 then some (c.toNat - 48) else none

theorem charDigit_digitChar (n : Nat) (h : n < 10) : charDigit (digitChar n) = some n := by
  interval_cases n <;> rfl

theorem digitChar_bne_dot (n : Nat) (h : n < 10) : (digitChar n != '.') = true := by
  interval_cases n <;> decide

theorem digitChar_beq_dash (n : Nat) (h : n < 10) : (digitChar n == '-') = false := by
  interval_cases n <;> decide

/-- Little-endian base-10 digits of a natural number; the first argument is
fuel bounding the recursion. -/
def natDigitsAux : Nat → Nat → List Nat
  | _, 0 => []
  | 0, _ + 1 => []
  | fuel + 1, n + 1 => (n + 1) % 10 :: natDigitsAux fuel ((n + 1) / 10)

/-- Little-endian base-10 digits of a natural number (`[]` for zero). -/
def natDigits (n : Nat) : List Nat := natDigitsAux n n

/-- The value denoted by a little-endian digit list. -/
def ofDigitsLE : List Nat → Nat
  | [] => 0
  | d :: L => d + 10 * ofDigitsLE L

theorem natDigitsAux_lt (fuel : Nat) : ∀ n, ∀ d ∈ natDigitsAux fuel n, d < 10 := by
  induction fuel with
  | zero =>
    intro n d hd
    cases n <;> simp [natDigitsAux] at hd
  | succ fuel ih =>
    intro n d hd
    cases n with
    | zero => simp [natDigitsAux] at hd
    | succ m =>
      simp only [natDigitsAux, List.mem_cons] at hd
      rcases hd with hd | hd
      · omega
      · exact ih _ d hd

theorem ofDigitsLE_natDigitsAux (fuel : Nat) :
    ∀ n, n ≤ fuel → ofDigitsLE (natDigitsAux fuel n) = n := by
  induction fuel with
  | zero =>
    intro n hn
    have : n = 0 := Nat.le_zero.mp hn
    subst this
    rfl
  | succ fuel ih =>
    intro n hn
    cases n with
    | zero => rfl
    | succ m =>
      have hdiv : (m + 1) / 10 ≤ fuel := by omega
      simp only [natDigitsAux, ofDigitsLE, ih _ hdiv]
      omega

theorem ofDigitsLE_natDigits (n : Nat) : ofDigitsLE (natDigits n) = n :=
  ofDigitsLE_natDigitsAux n n (Nat.le_refl n)

theorem natDigits_lt (n : Nat) : ∀ d ∈ natDigits n, d < 10 :=
  natDigitsAux_lt n n

/-- The digits of `n`, zero-padded at the high end to length at least
`s + 1` (so the text form has at least one digit before the point). -/
def padDigits (n s : Nat) : List Nat :=
  natDigits n ++ List.replicate (s + 1 - (natDigits n).length) 0

theorem padDigits_lt (n s : Nat) : ∀ d ∈ padDigits n s, d < 10 := by
  intro d hd
  rcases List.mem_append.mp hd with h | h
  · exact natDigits_lt n d h
  · have := List.eq_of_mem_replicate h
    omega

theorem padDigits_length (n s : Nat) : s + 1 ≤ (padDigits n s).length := by
  simp only [padDigits, List.length_append, List.length_replicate]
  omega

theorem ofDigitsLE_append (L1 L2 : List Nat) :
    ofDigitsLE (L1 ++ L2) = ofDigitsLE L1 + 10 ^ L1.length * ofDigitsLE L2 := by
  induction L1 with
  | nil => simp [ofDigitsLE]
  | cons d L ih =>
    simp only [List.cons_append, ofDigitsLE, List.append_eq, ih, List.length_cons]
    ring

theorem ofDigitsLE_replicate (k : Nat) : ofDigitsLE (List.replicate k 0) = 0 := by
  induction k with
  | zero => rfl
  | succ k ih => simp [List.replicate, ofDigitsLE, ih]

theorem ofDigitsLE_padDigits (n s : Nat) : ofDigitsLE (padDigits n s) = n := by
  simp [padDigits, ofDigitsLE_append, ofDigitsLE_replicate, ofDigitsLE_natDigits]

/-- The text form of the nonnegative decimal `n / 10 ^ s`: the digits of
`n` with a point inserted before the last `s` of them (no point when
`s = 0`), as Python prints a nonnegative `Decimal`. -/
def natToDecText (n : Nat) : Nat → List Char
  | 0 => ((padDigits n 0).reverse).map digitChar
  | s0 + 1 =>
    (((padDigits n (s0 + 1)).drop (s0 + 1)).reverse).map digitChar ++
      '.' :: (((padDigits n (s0 + 1)).take (s0 + 1)).reverse).map digitChar

/-- Reads a big-endian run of digit characters, accumulating the value. -/
def parseNatAux : List Char → Nat → Option Nat
  | [], acc => some acc
  | c :: rest, acc =>
    match charDigit c with
    | some d => parseNatAux rest (10 * acc + d)
    | none => none

/-- Reads a nonempty big-endian run of digit characters. -/
def parseDigitsBE : List Char → Option Nat
  | [] => none
  | c :: rest => parseNatAux (c :: rest) 0

theorem parseNatAux_map (L : List Nat) :
    ∀ acc, (∀ d ∈ L, d < 10) →
      parseNatAux (L.map digitChar) acc = some (L.foldl (fun a d => 10 * a + d) acc) := by
  induction L with
  | nil => intro acc _; rfl
  | cons d L ih =>
    intro acc h
    have hd : d < 10 := h d (List.mem_cons_self d L)
    simp only [List.map_cons, parseNatAux, charDigit_digitChar d hd, List.foldl_cons]
    exact ih _ (fun x hx => h x (List.mem_cons_of_mem d hx))

theorem foldl_reverse_ofDigitsLE (L : List Nat) :
    ∀ acc, (L.reverse).foldl (fun a d => 10 * a + d) acc = acc * 10 ^ L.length + ofDigitsLE L := by
  induction L with
  | nil => intro acc; simp [ofDigitsLE]
  | cons d L ih =>
    intro acc
    simp only [List.reverse_cons, List.foldl_append, ih, List.foldl_cons, List.foldl_nil,
      ofDigitsLE, List.length_cons]
    ring

theorem parseDigitsBE_rev_map (L : List Nat) (hne : L ≠ []) (h : ∀ d ∈ L, d < 10) :
    parseDigitsBE ((L.reverse).map digitChar) = some (ofDigitsLE L) := by
  have hmapne : (L.reverse).map digitChar ≠ [] := by
    simp [List.map_eq_nil_iff, hne]
  rcases hcs : (L.reverse).map digitChar with _ | ⟨c, rest⟩
  · exact absurd hcs hmapne
  · have hrev : ∀ d ∈ L.reverse, d < 10 := fun d hd => h d (List.mem_reverse.mp hd)
    have := parseNatAux_map (L.reverse) 0 hrev
    rw [hcs] at this
    simp only [parseDigitsBE, this, foldl_reverse_ofDigitsLE]
    simp

theorem takeWhile_append_cons {p : Char → Bool} (L1 : List Char) (x : Char) (L2 : List Char)
    (h : ∀ c ∈ L1, p c = true) (hx : p x = false) :
    (L1 ++ x :: L2).takeWhile p = L1 := by
  induction L1 with
  | nil => simp [List.takeWhile, hx]
  | cons c L ih =>
    have hc : p c = true := h c (List.mem_cons_self c L)
    simp only [List.cons_append, List.takeWhile_cons, hc, if_true]
    simp only [ih (fun d hd => h d (List.mem_cons_of_mem c hd))]

theorem dropWhile_append_cons {p : Char → Bool} (L1 : List Char) (x : Char) (L2 : List Char)
    (h : ∀ c ∈ L1, p c = true) (hx : p x = false) :
    (L1 ++ x :: L2).dropWhile p = x :: L2 := by
  induction L1 with
  | nil => simp [List.dropWhile, hx]
  | cons c L ih =>
    have hc : p c = true := h c (List.mem_cons_self c L)
    simp only [List.cons_append, List.dropWhile_cons, hc, if_true]
    exact ih (fun d hd => h d (List.mem_cons_of_mem c hd))

theorem takeWhile_all {p : Char → Bool} (L : List Char) (h : ∀ c ∈ L, p c = true) :
    L.takeWhile p = L := by
  induction L with
  | nil => rfl
  | cons c L ih =>
    have hc : p c = true := h c (List.mem_cons_self c L)
    simp only [List.takeWhile_cons, hc, if_true]
    simp only [ih (fun d hd => h d (List.mem_cons_of_mem c hd))]

theorem dropWhile_all {p : Char → Bool} (L : List Char) (h : ∀ c ∈ L, p c = true) :
    L.dropWhile p = [] := by
  induction L with
  | nil => rfl
  | cons c L ih =>
    have hc : p c = true := h c (List.mem_cons_self c L)
    simp only [List.dropWhile_cons, hc, if_true]
    exact ih (fun d hd => h d (List.mem_cons_of_mem c hd))

/-- Reads an unsigned decimal text: digits, optionally split by one point.
The scale of the result is the number of digits after the point. -/
def parseUnsigned (cs : List Char) : Option Dec :=
  let rest := cs.dropWhile (fun c => c != '.')
  if rest = [] then
    (parseDigitsBE (cs.takeWhile (fun c => c != '.'))).map (fun n => Dec.mk (Int.ofNat n) 0)
  else
    (parseDigitsBE (cs.takeWhile (fun c => c != '.'))).bind (fun a =>
      (parseDigitsBE (rest.drop 1)).map (fun b =>
        Dec.mk (Int.ofNat (a * 10 ^ (rest.drop 1).length + b)) ((rest.drop 1).length)))

/-- Reads a decimal text with an optional leading minus sign.  Models
Python `Decimal(text)` on the forms the service prints and accepts. -/
def Dec.parseChars : List Char → Option Dec
  | [] => none
  | c :: cs =>
    if c == '-' then (parseUnsigned cs).map (fun d => Dec.mk (-(d.mantissa)) d.scale)
    else parseUnsigned (c :: cs)

/-- The decimal text form of a value, sign first.  Models Python
`str(Decimal)` (spec: price is serialized as its decimal text form). -/
def Dec.toText (d : Dec) : String :=
  if d.mantissa < 0 then String.mk ('-' :: natToDecText d.mantissa.natAbs d.scale)
  else String.mk (natToDecText d.mantissa.natAbs d.scale)

/-- Models the conversion a `Decimal(text)` call performs. -/
def Dec.parse (s : String) : Option Dec := Dec.parseChars s.data

theorem parseUnsigned_digitsOnly (ds : List Nat) (hne : ds ≠ []) (hlt : ∀ d ∈ ds, d < 10) :
    parseUnsigned ((ds.reverse).map digitChar) = some (Dec.mk (Int.ofNat (ofDigitsLE ds)) 0) := by
  have hall : ∀ c ∈ (ds.reverse).map digitChar, (c != '.') = true := by
    intro c hc
    rcases List.mem_map.mp hc with ⟨d, hd, rfl⟩
    exact digitChar_bne_dot d (hlt d (List.mem_reverse.mp hd))
  rw [parseUnsigned]
  simp only [dropWhile_all _ hall, takeWhile_all _ hall,
    parseDigitsBE_rev_map _ hne hlt]
  rfl

theorem parseUnsigned_split (ds : List Nat) (s : Nat) (hs : s ≠ 0)
    (hlen : s + 1 ≤ ds.length) (hlt : ∀ d ∈ ds, d < 10) :
    parseUnsigned (((ds.drop s).reverse).map digitChar ++
        '.' :: ((ds.take s).reverse).map digitChar) =
      some (Dec.mk (Int.ofNat (ofDigitsLE ds)) s) := by
  have hdroplen : 1 ≤ (ds.drop s).length := by
    rw [List.length_drop]
    omega
  have htakelen : (ds.take s).length = s := by
    rw [List.length_take]
    omega
  have hdropne : ds.drop s ≠ [] := by
    intro h0
    rw [h0] at hdroplen
    simp at hdroplen
  have htakene : ds.take s ≠ [] := by
    intro h0
    rw [h0] at htakelen
    simp at htakelen
    omega
  have hdroplt : ∀ d ∈ ds.drop s, d < 10 := fun d hd => hlt d (List.drop_subset s ds hd)
  have htakelt : ∀ d ∈ ds.take s, d < 10 := fun d hd => hlt d (List.take_subset s ds hd)
  have hintall : ∀ c ∈ ((ds.drop s).reverse).map digitChar, (c != '.') = true := by
    intro c hc
    rcases List.mem_map.mp hc with ⟨d, hd, rfl⟩
    exact digitChar_bne_dot d (hdroplt d (List.mem_reverse.mp hd))
  have hdot : (('.' : Char) != '.') = false := by decide
  have hfraclen : (((ds.take s).reverse).map digitChar).length = s := by
    rw [List.length_map, List.length_reverse, htakelen]
  have hval : ofDigitsLE (ds.drop s) * 10 ^ s + ofDigitsLE (ds.take s) = ofDigitsLE ds := by
    have happ := ofDigitsLE_append (ds.take s) (ds.drop s)
    rw [List.take_append_drop, htakelen,
      Nat.mul_comm (10 ^ s) (ofDigitsLE (ds.drop s))] at happ
    omega
  rw [parseUnsigned]
  simp only [dropWhile_append_cons _ _ _ hintall hdot,
    takeWhile_append_cons _ _ _ hintall hdot, List.drop_succ_cons, List.drop_zero,
    if_neg (List.cons_ne_nil '.' (((ds.take s).reverse).map digitChar)),
    parseDigitsBE_rev_map _ hdropne hdroplt,
    parseDigitsBE_rev_map _ htakene htakelt,
    Option.some_bind, Option.map_some', hfraclen, hval]

theorem padDigits_ne_nil (n s : Nat) : padDigits n s ≠ [] := by
  intro h0
  have := padDigits_length n s
  rw [h0] at this
  simp at this

theorem parseUnsigned_natToDecText (n s : Nat) :
    parseUnsigned (natToDecText n s) = some (Dec.mk (Int.ofNat n) s) := by
  cases s with
  | zero =>
    rw [natToDecText,
      parseUnsigned_digitsOnly _ (padDigits_ne_nil n 0) (padDigits_lt n 0),
      ofDigitsLE_padDigits]
  | succ s0 =>
    rw [natToDecText,
      parseUnsigned_split _ (s0 + 1) (Nat.succ_ne_zero s0) (padDigits_length n (s0 + 1))
        (padDigits_lt n (s0 + 1)),
      ofDigitsLE_padDigits]

theorem natToDecText_shape (n s : Nat) :
    ∃ d rest, natToDecText n s = digitChar d :: rest ∧ d < 10 := by
  cases s with
  | zero =>
    have hne : (padDigits n 0).reverse ≠ [] := by
      intro h0
      exact padDigits_ne_nil n 0 (by simpa using congrArg List.reverse h0)
    rcases hrev : (padDigits n 0).reverse with _ | ⟨d, rest⟩
    · exact absurd hrev hne
    · refine ⟨d, rest.map digitChar, ?_, ?_⟩
      · rw [natToDecText, hrev, List.map_cons]
      · have : d ∈ (padDigits n 0).reverse := by
          rw [hrev]; exact List.mem_cons_self d rest
        exact padDigits_lt n 0 d (List.mem_reverse.mp this)
  | succ s0 =>
    have hlen := padDigits_length n (s0 + 1)
    have hdroplen : 1 ≤ ((padDigits n (s0 + 1)).drop (s0 + 1)).length := by
      rw [List.length_drop]
      omega
    rcases hrev : ((padDigits n (s0 + 1)).drop (s0 + 1)).reverse with _ | ⟨d, rest⟩
    · have : (padDigits n (s0 + 1)).drop (s0 + 1) = [] := by
        simpa using congrArg List.reverse hrev
      rw [this] at hdroplen
      simp at hdroplen
    · refine ⟨d, rest.map digitChar ++
        '.' :: (((padDigits n (s0 + 1)).take (s0 + 1)).reverse).map digitChar, ?_, ?_⟩
      · rw [natToDecText, hrev, List.map_cons, List.cons_append]
      · have : d ∈ ((padDigits n (s0 + 1)).drop (s0 + 1)).reverse := by
          rw [hrev]; exact List.mem_cons_self d rest
        exact padDigits_lt n (s0 + 1) d
          (List.drop_subset (s0 + 1) _ (List.mem_reverse.mp this))

theorem parseChars_natToDecText (n s : Nat) :
    Dec.parseChars (natToDecText n s) = some (Dec.mk (Int.ofNat n) s) := by
  rcases natToDecText_shape n s with ⟨d, rest, hshape, hd⟩
  rw [hshape, Dec.parseChars, digitChar_beq_dash d hd]
  simp only [Bool.false_eq_true, if_false]
  rw [← hshape, parseUnsigned_natToDecText]

/-- Printing a decimal and reading the text back restores it exactly. -/
theorem Dec.parse_toText (d : Dec) : Dec.parse (Dec.toText d) = some d := by
  rcases d with ⟨m, s⟩
  by_cases hm : m < 0
  · have hdata : (Dec.toText ⟨m, s⟩).data = '-' :: natToDecText m.natAbs s := by
      simp [Dec.toText, hm]
    have hneg : -(Int.ofNat m.natAbs) = m := by
      rw [Int.ofNat_eq_coe]
      omega
    rw [Dec.parse, hdata]
    simp only [Dec.parseChars, beq_self_eq_true, if_true, parseUnsigned_natToDecText,
      Option.map_some', hneg]
  · have hdata : (Dec.toText ⟨m, s⟩).data = natToDecText m.natAbs s := by
      simp [Dec.toText, hm]
    have hpos : Int.ofNat m.natAbs = m := by
      rw [Int.ofNat_eq_coe]
      omega
    rw [Dec.parse, hdata, parseChars_natToDecText, hpos]

/-- The product category enumeration.  The member set is taken from the
repository (tests use `Category.CLOTHS` and the name `UNKNOWN`; the
factory draws from the whole enumeration). -/
inductive Category
  | UNKNOWN
  | CLOTHS
  | FOOD
  | HOUSEWARES
  | AUTOMOTIVE
  | TOOLS
deriving DecidableEq, Repr

/-- The string name of a category member, as serialized (spec: category is
serialized as its string name). -/
def Category.name : Category → String
  | .UNKNOWN => "UNKNOWN"
  | .CLOTHS => "CLOTHS"
  | .FOOD => "FOOD"
  | .HOUSEWARES => "HOUSEWARES"
  | .AUTOMOTIVE => "AUTOMOTIVE"
  | .TOOLS => "TOOLS"

/-- The category member denoted by a string, if any.  Models a
`getattr(Category, s)` lookup: `none` stands for the `AttributeError`
case. -/
def Category.fromName (s : String) : Option Category :=
  if s == "UNKNOWN" then some .UNKNOWN
  else if s == "CLOTHS" then some .CLOTHS
  else if s == "FOOD" then some .FOOD
  else if s == "HOUSEWARES" then some .HOUSEWARES
  else if s == "AUTOMOTIVE" then some .AUTOMOTIVE
  else if s == "TOOLS" then some .TOOLS
  else none

theorem Category.fromName_name (c : Category) : Category.fromName c.name = some c := by
  cases c <;> rfl

/-- A JSON value as it appears in request and response bodies. -/
inductive JsonVal
  | jnull
  | jbool (b : Bool)
  | jint (n : Int)
  | jdec (d : Dec)
  | jstr (s : String)
deriving DecidableEq, Repr

/-- A flat JSON object: key-value pairs, first binding of a key wins. -/
abbrev Payload := List (String × JsonVal)

/-- First value bound to a key in a payload. -/
def lookupKey (data : Payload) (k : String) : Option JsonVal :=
  List.lookup k data

/-- A Product record.  Spec section 3: `id` is an integer assigned by the
store (`none` before the record is persisted), `name` and `description`
are text, `price` is a decimal, `available` a boolean and `category` one
of the enumerated members. -/
structure Product where
  id : Option Int
  name : String
  description : String
  price : Dec
  available : Bool
  category : Category
deriving DecidableEq, Repr

/-- Modelled from the spec: a record freshly constructed in memory, before
any field is populated (`id` is `None` before the record is persisted). -/
def Product.empty : Product :=
  { id := none, name := "", description := "", price := ⟨0, 0⟩,
    available := false, category := .UNKNOWN }

/-- Modelled from the spec: `serialize()` converts the record to a flat
key-value representation with keys id, name, description, price,
available, category; the category as its string name and the price as its
decimal text form. -/
def Product.serialize (p : Product) : Payload :=
  [("id", match p.id with | some n => .jint n | none => .jnull),
   ("name", .jstr p.name),
   ("description", .jstr p.description),
   ("price", .jstr (Dec.toText p.price)),
   ("available", .jbool p.available),
   ("category", .jstr p.category.name)]

/-- Reads the name field of a payload: required, must be text. -/
def get_name_field (d : Payload) : Except String String :=
  match lookupKey d "name" with
  | some (.jstr s) => .ok s
  | some _ => .error "invalid name"
  | none => .error "missing key name"

/-- Reads the description field: optional (spec section 3), must be text
when present; the record keeps its current value when absent. -/
def get_descr_field (d : Payload) (dflt : String) : Except String String :=
  match lookupKey d "description" with
  | some (.jstr s) => .ok s
  | some _ => .error "invalid description"
  | none => .ok dflt

/-- Reads the price field: required; a decimal, an integer, or a decimal
text form which is normalized (spec: the price filter and deserialization
accept a text representation of a decimal). -/
def get_price_field (d : Payload) : Except String Dec :=
  match lookupKey d "price" with
  | some (.jdec dv) => .ok dv
  | some (.jint n) => .ok ⟨n, 0⟩
  | some (.jstr s) =>
    match Dec.parse s with
    | some dv => .ok dv
    | none => .error "invalid price"
  | some _ => .error "invalid price"
  | none => .error "missing key price"

/-- Reads the available field: required and, per the spec, a validation
error when present but not a boolean. -/
def get_bool_field (d : Payload) : Except String Bool :=
  match lookupKey d "available" with
  | some (.jbool b) => .ok b
  | some _ => .error "available must be a boolean"
  | none => .error "missing key available"

/-- Reads the category field: required; a validation error when the text
does not match a known enumerated member. -/
def get_category_field (d : Payload) : Except String Category :=
  match lookupKey d "category" with
  | some (.jstr s) =>
    match Category.fromName s with
    | some c => .ok c
    | none => .error "unknown category"
  | some _ => .error "invalid category"
  | none => .error "missing key category"

/-- Reads the id field when present (an integer or null); the record keeps
its current id when the key is absent or has another shape. -/
def get_id_field (d : Payload) (dflt : Option Int) : Option Int :=
  match lookupKey d "id" with
  | some (.jint n) => some n
  | some .jnull => none
  | _ => dflt

/-- Modelled from the spec: `deserialize(data)` populates the record from
a flat key-value representation.  It fails with a validation error when
the data is not a mapping (`none` here models a non-mapping body), a
required key is missing, `available` is present but not a boolean, or
`category` does not match a known enumerated value.  The error carries the
`DataValidationError` message. -/
def Product.deserialize (p : Product) (data : Option Payload) : Except String Product :=
  match data with
  | none => .error "body is not a mapping"
  | some d =>
    match get_name_field d, get_descr_field d p.description, get_price_field d,
        get_bool_field d, get_category_field d with
    | .ok name, .ok descr, .ok price, .ok avail, .ok cat =>
      .ok { id := get_id_field d p.id, name := name, description := descr,
            price := price, available := avail, category := cat }
    | .error e, _, _, _, _ => .error e
    | _, .error e, _, _, _ => .error e
    | _, _, .error e, _, _ => .error e
    | _, _, _, .error e, _ => .error e
    | _, _, _, _, .error e => .error e

example :
    Product.deserialize Product.empty
      (some [("name", .jstr "Fedora"), ("description", .jstr "A red hat"),
             ("price", .jstr "12.50"), ("available", .jbool true),
             ("category", .jstr "CLOTHS")]) =
      .ok { id := none, name := "Fedora", description := "A red hat",
            price := ⟨1250, 2⟩, available := true, category := .CLOTHS } := by
  rfl

example :
    Product.deserialize Product.empty
      (some [("name", .jstr "Fedora"), ("description", .jstr "A red hat"),
             ("price", .jstr "12.50"), ("available", .jstr "True"),
             ("category", .jstr "UNKNOWN")]) =
      .error "available must be a boolean" := by
  rfl

/-- The persisted store: the rows of the product table, in insertion
order. -/
abbrev Store := List Product

/-- Modelled from the spec: `all()` returns every row as a list of
records. -/
def Product.all (db : Store) : List Product := db

/-- Modelled from the spec: `find(id)` returns the record matching the id
or an empty result if absent. -/
def Product.find (db : Store) (i : Int) : Option Product :=
  db.find? (fun q => q.id == some i)

/-- Modelled from the spec: `find_by_name(name)` is an exact-match
filter. -/
def Product.find_by_name (db : Store) (name : String) : List Product :=
  db.filter (fun q => q.name == name)

/-- Modelled from the spec: `find_by_category(category)` is an exact-match
filter. -/
def Product.find_by_category (db : Store) (c : Category) : List Product :=
  db.filter (fun q => q.category == c)

/-- Modelled from the spec: `find_by_availability(bool)` is an exact-match
filter. -/
def Product.find_by_availability (db : Store) (avail : Bool) : List Product :=
  db.filter (fun q => q.available == avail)

/-- The argument accepted by the price filter: a decimal or its text
representation. -/
inductive PriceArg
  | dec (d : Dec)
  | str (s : String)
deriving DecidableEq, Repr

/-- Modelled from the spec: the price filter accepts and normalizes a text
representation of a decimal before comparing; `none` models the error a
malformed text raises. -/
def normalize_price : PriceArg → Option Dec
  | .dec d => some d
  | .str s => Dec.parse s

/-- Exact numeric comparison of two decimals as values
(`a.mantissa / 10 ^ a.scale = b.mantissa / 10 ^ b.scale`), as the store
compares fixed-point numerics. -/
def Dec.sameVal (a b : Dec) : Bool :=
  a.mantissa * (10 : Int) ^ b.scale == b.mantissa * (10 : Int) ^ a.scale

/-- Modelled from the spec: `find_by_price(decimal)` is an exact-match
filter which accepts and normalizes a text representation of a decimal
before comparing; `none` models the error a malformed text raises. -/
def Product.find_by_price (db : Store) (price : PriceArg) : Option (List Product) :=
  match normalize_price price with
  | some d => some (db.filter (fun q => Dec.sameVal q.price d))
  | none => none

/-- The greatest id present in the store (zero when empty). -/
def maxId (db : Store) : Int :=
  db.foldr (fun q acc => max (q.id.getD 0) acc) 0

/-- The fresh id the store assigns to the next created row. -/
def nextId (db : Store) : Int := maxId db + 1

/-- Modelled from the spec: `create()` inserts a new row and assigns a
fresh unique id.  Returns the new store and the created record. -/
def Product.create (db : Store) (p : Product) : Store × Product :=
  let p2 := { p with id := some (nextId db) }
  (db ++ [p2], p2)

/-- The error kinds of the record layer update: a validation error
(`DataValidationError`) or a not-found condition. -/
inductive UpdateError
  | validation (msg : String)
  | notFound
deriving DecidableEq, Repr

/-- Modelled from the spec: `update()` persists the record's current field
values to the matching row; fails with a validation error if `id` is
`None`; fails with a not-found condition if `id` does not match any
row. -/
def Product.update (db : Store) (p : Product) : Except UpdateError Store :=
  match p.id with
  | none => .error (.validation "update called with empty id")
  | some i =>
    if db.any (fun q => q.id == some i) then
      .ok (db.map (fun q => if q.id == some i then p else q))
    else .error .notFound

/-- Modelled from the spec: `delete()` removes the row matching the
record's id; no-op-safe if already absent. -/
def Product.delete (db : Store) (p : Product) : Store :=
  db.filter (fun q => q.id != p.id)

theorem mem_id_le_maxId (db : Store) (q : Product) (hq : q ∈ db) :
    q.id.getD 0 ≤ maxId db := by
  induction db with
  | nil => cases hq
  | cons r db ih =>
    rcases List.mem_cons.mp hq with h | h
    · subst h
      exact le_max_left _ _
    · exact le_trans (ih h) (le_max_right _ _)

theorem id_ne_nextId (db : Store) (q : Product) (hq : q ∈ db) :
    ¬ q.id = some (nextId db) := by
  intro h
  have := mem_id_le_maxId db q hq
  rw [h] at this
  simp only [Option.getD_some, nextId] at this
  omega

theorem find_append_fresh (db : Store) (p2 : Product) (i : Int)
    (h : ∀ q ∈ db, ¬ q.id = some i) (hp : p2.id = some i) :
    Product.find (db ++ [p2]) i = some p2 := by
  induction db with
  | nil =>
    simp [Product.find, List.find?, hp]
  | cons r db ih =>
    have hr : ¬ r.id = some i := h r (List.mem_cons_self r db)
    have hrb : (r.id == some i) = false := beq_eq_false_iff_ne.mpr hr
    simp only [List.cons_append, Product.find, List.find?, hrb]
    exact ih (fun q hq => h q (List.mem_cons_of_mem r hq))

theorem find_filter_out (db : Store) (i : Int) :
    Product.find (db.filter (fun q => q.id != some i)) i = none := by
  induction db with
  | nil => rfl
  | cons r db ih =>
    by_cases hr : r.id = some i
    · have : (r.id != some i) = false := by
        simp [hr]
      simp only [List.filter_cons, this, Bool.false_eq_true, if_false]
      exact ih
    · have h1 : (r.id != some i) = true := by
        simp [hr]
      have h2 : (r.id == some i) = false := beq_eq_false_iff_ne.mpr hr
      simp only [List.filter_cons, h1, if_true, Product.find, List.find?, h2]
      exact ih

theorem find_mem_and_id (db : Store) (i : Int) (p : Product)
    (h : Product.find db i = some p) : p ∈ db ∧ p.id = some i := by
  have hmem := List.mem_of_find?_eq_some h
  have hpred := List.find?_some h
  exact ⟨hmem, beq_iff_eq.mp hpred⟩

/-- An incoming HTTP request: the Content-Type header when supplied, the
parsed JSON body (`none` models a non-mapping body), and the query
arguments in order. -/
structure HttpRequest where
  contentType : Option String
  body : Option Payload
  args : List (String × String)
deriving DecidableEq, Repr

/-- A response body: one serialized record, a list of them, or a plain
message object. -/
inductive RespBody
  | record (data : Payload)
  | records (data : List Payload)
  | message (text : String)
deriving DecidableEq, Repr

/-- An HTTP response returned normally by a handler. -/
structure HttpResponse where
  status : Nat
  body : RespBody
  location : Option String
deriving DecidableEq, Repr

/-- An exception escaping a handler uncaught: `getattr` on a missing
enumeration member, a malformed `Decimal` text, a record-layer
`DataValidationError` (converted to 400 by an external collaborator), or
a record-layer not-found condition. -/
inductive PyError
  | AttributeError (attr : String)
  | InvalidOperation
  | DataValidationErr (msg : String)
  | NotFoundErr
deriving DecidableEq, Repr

/-- The outcome of one handler call: a normal response, a response built
through the flask `abort` mechanism, or an uncaught exception. -/
inductive HandlerResult
  | response (r : HttpResponse)
  | aborted (status : Nat) (detail : String)
  | raised (e : PyError)
deriving DecidableEq, Repr

/-- From `routes.py` `check_content_type`: aborts 415 when the header is
absent or differs from the expected media type. -/
def check_content_type (req : HttpRequest) (expected : String) : Option HandlerResult :=
  match req.contentType with
  | none => some (.aborted 415 ("Content-Type must be " ++ expected))
  | some ct =>
    if ct == expected then none
    else some (.aborted 415 ("Content-Type must be " ++ expected))

/-- The first value supplied for a query argument
(`request.args.get`). -/
def getArg (req : HttpRequest) (k : String) : Option String :=
  List.lookup k req.args

/-- The value of a query argument when it is truthy in the Python sense:
supplied and not the empty string. -/
def presentArg (req : HttpRequest) (k : String) : Option String :=
  match getArg req k with
  | some s => if s == "" then none else some s
  | none => none

/-- The upper-cased form of an ASCII character, as Python `str.upper`
maps it. -/
def upperChar (c : Char) : Char :=
  if 97 ≤ c.toNat ∧ c.toNat ≤ 122 then Char.ofNat (c.toNat - 32) else c

/-- The upper-cased form of an ASCII string, as Python `str.upper` maps
it. -/
def upperStr (s : String) : String :=
  String.mk (s.data.map upperChar)

/-- The lower-cased form of an ASCII character, as Python `str.lower`
maps it. -/
def lowerChar (c : Char) : Char :=
  if 65 ≤ c.toNat ∧ c.toNat ≤ 90 then Char.ofNat (c.toNat + 32) else c

/-- The lower-cased form of an ASCII string, as Python `str.lower` maps
it. -/
def lowerStr (s : String) : String :=
  String.mk (s.data.map lowerChar)

/-- From `routes.py` `list_products`: `available` text is truthy exactly
when its lower-cased form is one of true, yes, 1. -/
def parse_available (s : String) : Bool :=
  ["true", "yes", "1"].contains (lowerStr s)

/-- The URL of the read endpoint for a record id, as `url_for` builds it
for the Location header. -/
def location_url (i : Int) : String :=
  "/products/" ++ toString i

/-- From `routes.py` `list_products`: applies the first truthy filter
among name, category, available, price and responds 200 with the
serialized matches; with none truthy, responds 200 with every record.  An
unknown category name raises `AttributeError` (`getattr` on the
enumeration); a malformed price text raises the `Decimal` conversion
error. -/
def list_products (db : Store) (req : HttpRequest) : HandlerResult :=
  match presentArg req "name", presentArg req "category",
      presentArg req "available", presentArg req "price" with
  | some name, _, _, _ =>
    .response ⟨200, .records ((Product.find_by_name db name).map Product.serialize), none⟩
  | none, some cat, _, _ =>
    match Category.fromName (upperStr cat) with
    | some c =>
      .response ⟨200, .records ((Product.find_by_category db c).map Product.serialize), none⟩
    | none => .raised (.AttributeError (upperStr cat))
  | none, none, some avail, _ =>
    .response ⟨200,
      .records ((Product.find_by_availability db (parse_available avail)).map Product.serialize),
      none⟩
  | none, none, none, some price =>
    match Dec.parse price with
    | none => .raised .InvalidOperation
    | some d =>
      match Product.find_by_price db (.dec d) with
      | some rows => .response ⟨200, .records (rows.map Product.serialize), none⟩
      | none => .raised .InvalidOperation
  | none, none, none, none =>
    .response ⟨200, .records ((Product.all db).map Product.serialize), none⟩

/-- From `routes.py` `create_products`: requires the JSON media type,
deserializes the body into a new record, creates it and responds 201 with
the serialized record and a Location header; a validation error escapes to
the external error handler. -/
def create_products (db : Store) (req : HttpRequest) : Store × HandlerResult :=
  match check_content_type req "application/json" with
  | some ab => (db, ab)
  | none =>
    match Product.deserialize Product.empty req.body with
    | .error msg => (db, .raised (.DataValidationErr msg))
    | .ok p0 =>
      let pr := Product.create db p0
      (pr.1, .response ⟨201, .record (Product.serialize pr.2),
        some (location_url (pr.2.id.getD 0))⟩)

/-- From `routes.py` `get_a_product`: 200 with the serialized record, or
an abort 404 when no record has the id. -/
def get_a_product (db : Store) (product_id : Int) : HandlerResult :=
  match Product.find db product_id with
  | none =>
    .aborted 404 ("Product with id " ++ toString product_id ++ " was not found.")
  | some p => .response ⟨200, .record (Product.serialize p), none⟩

/-- From `routes.py` `update_a_product`: requires the JSON media type,
aborts 404 when the id is unknown, otherwise deserializes the body onto
the found record, forces the record id back to the path id, persists and
responds 200 with the updated serialized record. -/
def update_a_product (db : Store) (product_id : Int) (req : HttpRequest) :
    Store × HandlerResult :=
  match check_content_type req "application/json" with
  | some ab => (db, ab)
  | none =>
    match Product.find db product_id with
    | none =>
      (db, .aborted 404 ("Product with id " ++ toString product_id ++ " was not found."))
    | some product =>
      match Product.deserialize product req.body with
      | .error msg => (db, .raised (.DataValidationErr msg))
      | .ok p1 =>
        match Product.update db { p1 with id := some product_id } with
        | .error (.validation m) => (db, .raised (.DataValidationErr m))
        | .error .notFound => (db, .raised .NotFoundErr)
        | .ok db2 =>
          (db2, .response ⟨200,
            .record (Product.serialize { p1 with id := some product_id }), none⟩)

/-- From `routes.py` `delete_a_product`: deletes and returns 200 with a
confirmation message when found; otherwise returns 404 with a message as a
normal body rather than through `abort`. -/
def delete_a_product (db : Store) (product_id : Int) : Store × HandlerResult :=
  match Product.find db product_id with
  | some p =>
    (Product.delete db p, .response ⟨200, .message "Product deleted.", none⟩)
  | none =>
    (db, .response ⟨404, .message "Product with given ID not found.", none⟩)

/-- Whether a handler outcome is a normal 200 response carrying a list of
records. -/
def is200ListResponse : HandlerResult → Bool
  | .response r =>
    r.status == 200 && (match r.body with | .records _ => true | _ => false)
  | _ => false

/-- The canonical form of a request's query arguments: only the four
filter keys, each with its first supplied value and only when that value
is non-empty. -/
def scrub_args (req : HttpRequest) : HttpRequest :=
  { req with args := (["name", "category", "available", "price"].filterMap
      (fun k => (presentArg req k).map (fun v => (k, v)))) }

/-- Claim C1: for every valid Product record, deserializing the result of
serializing it yields a record equal to it field-by-field, whatever record
the fields are deserialized onto. -/
theorem claim_C1_serialize_roundtrip (p q : Product) :
    Product.deserialize q (some (Product.serialize p)) = .ok p := by
  obtain ⟨pid, pname, pdesc, pprice, pavail, pcat⟩ := p
  have hprice := Dec.parse_toText pprice
  have hcat := Category.fromName_name pcat
  cases pid <;>
    simp [Product.deserialize, Product.serialize, get_name_field, get_descr_field,
      get_price_field, get_bool_field, get_category_field, get_id_field, lookupKey,
      List.lookup, hprice, hcat]

/-- Claim C7: the price filter applied to the text representation of a
decimal and applied to the decimal itself return identical result sets, on
every store. -/
theorem claim_C7_price_text_filter (db : Store) (d : Dec) :
    Product.find_by_price db (.str (Dec.toText d)) = Product.find_by_price db (.dec d) := by
  simp only [Product.find_by_price, normalize_price, Dec.parse_toText d]

/-- Claim C5: a POST whose Content-Type header is not application/json
(including a missing header) is answered 415 through abort and creates no
record. -/
theorem claim_C5_wrong_media_type (db : Store) (req : HttpRequest)
    (h : req.contentType ≠ some "application/json") :
    create_products db req =
      (db, .aborted 415 ("Content-Type must be " ++ "application/json")) := by
  cases hct : req.contentType with
  | none => simp only [create_products, check_content_type, hct]
  | some ct =>
    have hne : ct ≠ "application/json" := by
      intro h2
      exact h (by rw [hct, h2])
    simp only [create_products, check_content_type, hct,
      beq_eq_false_iff_ne.mpr hne, Bool.false_eq_true, if_false]

/-- Witness for claim C5: the spec scenario, POSTing with text/plain. -/
theorem claim_C5_witness :
    create_products [] ⟨some "text/plain", none, []⟩ =
      ([], .aborted 415 ("Content-Type must be " ++ "application/json")) :=
  claim_C5_wrong_media_type [] ⟨some "text/plain", none, []⟩ (by decide)

/-- Claim C6: update on a record whose id is none fails with the
validation error, and fails with the not-found condition when the id
matches no row. -/
theorem claim_C6_update_errors (db : Store) (p : Product) :
    (p.id = none →
      Product.update db p = .error (.validation "update called with empty id")) ∧
    (∀ i, p.id = some i → (∀ q ∈ db, ¬ q.id = some i) →
      Product.update db p = .error .notFound) := by
  constructor
  · intro h
    simp only [Product.update, h]
  · intro i h hq
    have hany : db.any (fun q => q.id == some i) = false := by
      rw [Bool.eq_false_iff]
      intro hc
      rcases List.any_eq_true.mp hc with ⟨q, hqm, hqe⟩
      exact hq q hqm (beq_iff_eq.mp hqe)
    simp only [Product.update, h, hany, Bool.false_eq_true, if_false]

/-- A concrete persisted record used by the witnesses. -/
def prodW : Product :=
  { id := some 1, name := "Fedora", description := "A red hat", price := ⟨1250, 2⟩,
    available := true, category := .CLOTHS }

/-- Witness for claim C6: both failure modes at concrete inputs. -/
theorem claim_C6_witness :
    Product.update [] { prodW with id := none } =
        .error (.validation "update called with empty id") ∧
      Product.update [] prodW = .error .notFound :=
  ⟨(claim_C6_update_errors [] { prodW with id := none }).1 rfl,
   (claim_C6_update_errors [] prodW).2 1 rfl (by intro q hq; cases hq)⟩

/-- Claim C10: a GET on the collection with a category value whose
upper-cased form is not an enumeration member raises an uncaught
AttributeError instead of producing a 4xx response. -/
theorem claim_C10_unknown_category (db : Store) (req : HttpRequest) (s : String)
    (h1 : presentArg req "name" = none) (h2 : presentArg req "category" = some s)
    (h3 : Category.fromName (upperStr s) = none) :
    list_products db req = .raised (.AttributeError (upperStr s)) := by
  simp only [list_products, h1, h2, h3]

/-- Witness for claim C10: a concrete unknown category value. -/
theorem claim_C10_witness :
    list_products [] ⟨none, none, [("category", "boots")]⟩ =
      .raised (.AttributeError (upperStr "boots")) :=
  claim_C10_unknown_category [] ⟨none, none, [("category", "boots")]⟩ "boots" rfl rfl rfl

/-- Claim C2, counterexample: a GET on the collection whose only filter is
an unknown category value yields an uncaught exception, not a 200 response
with a list. -/
theorem claim_C2_counterexample :
    list_products [] ⟨none, none, [("category", "bogus")]⟩ =
        .raised (.AttributeError "BOGUS") ∧
      is200ListResponse (list_products [] ⟨none, none, [("category", "bogus")]⟩) = false := by
  constructor <;> rfl

/-- Claim C2 (amended): the filters name, category, available, price are
applied with first-present-wins precedence, an empty value counting as
absent, and only the selected filter is applied; with none present every
record is returned; the response is 200 with the list of serialized
matches provided the selected filter's value is well-formed (always for
name and available; for category when its upper-cased form names an
enumeration member, for price when the text parses as a decimal). -/
theorem claim_C2_list_filters (db : Store) (req : HttpRequest) :
    (∀ s, presentArg req "name" = some s →
      list_products db req =
        .response ⟨200, .records ((Product.find_by_name db s).map Product.serialize), none⟩) ∧
    (∀ s c, presentArg req "name" = none → presentArg req "category" = some s →
      Category.fromName (upperStr s) = some c →
      list_products db req =
        .response ⟨200, .records ((Product.find_by_category db c).map Product.serialize), none⟩) ∧
    (∀ s, presentArg req "name" = none → presentArg req "category" = none →
      presentArg req "available" = some s →
      list_products db req =
        .response ⟨200,
          .records ((Product.find_by_availability db (parse_available s)).map Product.serialize),
          none⟩) ∧
    (∀ s dv, presentArg req "name" = none → presentArg req "category" = none →
      presentArg req "available" = none → presentArg req "price" = some s →
      Dec.parse s = some dv →
      list_products db req =
        .response ⟨200,
          .records (((Product.find_by_price db (.dec dv)).getD []).map Product.serialize),
          none⟩) ∧
    (presentArg req "name" = none → presentArg req "category" = none →
      presentArg req "available" = none → presentArg req "price" = none →
      list_products db req =
        .response ⟨200, .records ((Product.all db).map Product.serialize), none⟩) := by
  refine ⟨?_, ?_, ?_, ?_, ?_⟩
  · intro s h1
    simp only [list_products, h1]
  · intro s c h1 h2 h3
    simp only [list_products, h1, h2, h3]
  · intro s h1 h2 h3
    simp only [list_products, h1, h2, h3]
  · intro s dv h1 h2 h3 h4 h5
    simp only [list_products, h1, h2, h3, h4, h5, Product.find_by_price, normalize_price,
      Option.getD_some]
  · intro h1 h2 h3 h4
    simp only [list_products, h1, h2, h3, h4]

/-- Witness for claim C2 (amended): the no-filter case and the name-filter
case at concrete requests. -/
theorem claim_C2_witness :
    list_products [] ⟨none, none, []⟩ =
        .response ⟨200, .records ((Product.all []).map Product.serialize), none⟩ ∧
      list_products [] ⟨none, none, [("name", "socks")]⟩ =
        .response ⟨200, .records ((Product.find_by_name [] "socks").map Product.serialize),
          none⟩ :=
  ⟨(claim_C2_list_filters [] ⟨none, none, []⟩).2.2.2.2 rfl rfl rfl rfl,
   (claim_C2_list_filters [] ⟨none, none, [("name", "socks")]⟩).1 "socks" rfl⟩

/-- Claim C3: a PUT with JSON content type aborts 404 when the id matches
no record; otherwise the body is deserialized onto the found record, the
id is forced back to the path id whatever the body carried, the row is
persisted and the response is 200 with the updated serialized record. -/
theorem claim_C3_put_updates (db : Store) (i : Int) (req : HttpRequest)
    (hct : req.contentType = some "application/json") :
    (Product.find db i = none →
      update_a_product db i req =
        (db, .aborted 404 ("Product with id " ++ toString i ++ " was not found."))) ∧
    (∀ p p1, Product.find db i = some p →
      Product.deserialize p req.body = .ok p1 →
      update_a_product db i req =
        (db.map (fun q => if q.id == some i then { p1 with id := some i } else q),
         .response ⟨200, .record (Product.serialize { p1 with id := some i }), none⟩)) := by
  have hchk : check_content_type req "application/json" = none := by
    simp only [check_content_type, hct, beq_self_eq_true, if_true]
  constructor
  · intro hf
    simp only [update_a_product, hchk, hf]
  · intro p p1 hf hd
    have hmem := find_mem_and_id db i p hf
    have hany : db.any (fun q => q.id == some i) = true :=
      List.any_eq_true.mpr ⟨p, hmem.1, beq_iff_eq.mpr hmem.2⟩
    simp only [update_a_product, hchk, hf, hd, Product.update, hany, if_true]

/-- The request body used by the update and create witnesses. -/
def payloadW : Payload :=
  [("name", .jstr "Fedora"), ("description", .jstr "A red hat"),
   ("price", .jdec ⟨1250, 2⟩), ("available", .jbool true),
   ("category", .jstr "CLOTHS")]

/-- The JSON request used by the update and create witnesses. -/
def reqW : HttpRequest := ⟨some "application/json", some payloadW, []⟩

/-- Witness for claim C3: the 404 path on an empty store and the update
path on a store holding the matching record. -/
theorem claim_C3_witness :
    update_a_product [] 1 reqW =
        ([], .aborted 404 ("Product with id " ++ toString (1 : Int) ++ " was not found.")) ∧
      update_a_product [prodW] 1 reqW =
        ([prodW].map (fun q => if q.id == some 1 then { prodW with id := some 1 } else q),
         .response ⟨200, .record (Product.serialize { prodW with id := some 1 }), none⟩) :=
  ⟨(claim_C3_put_updates [] 1 reqW rfl).1 rfl,
   (claim_C3_put_updates [prodW] 1 reqW rfl).2 prodW prodW rfl rfl⟩

/-- Claim C4: a POST with JSON content type and a valid body creates the
deserialized record under a fresh id, responds 201 with the serialized
record and a Location header naming its read endpoint, and a GET on that
endpoint returns the same serialized data. -/
theorem claim_C4_post_create (db : Store) (req : HttpRequest) (p0 : Product)
    (hct : req.contentType = some "application/json")
    (hde : Product.deserialize Product.empty req.body = .ok p0) :
    create_products db req =
      (db ++ [{ p0 with id := some (nextId db) }],
       .response ⟨201, .record (Product.serialize { p0 with id := some (nextId db) }),
         some (location_url (nextId db))⟩) ∧
    get_a_product (db ++ [{ p0 with id := some (nextId db) }]) (nextId db) =
      .response ⟨200, .record (Product.serialize { p0 with id := some (nextId db) }), none⟩ := by
  have hchk : check_content_type req "application/json" = none := by
    simp only [check_content_type, hct, beq_self_eq_true, if_true]
  have hfind : Product.find (db ++ [{ p0 with id := some (nextId db) }]) (nextId db) =
      some { p0 with id := some (nextId db) } :=
    find_append_fresh db _ (nextId db) (fun q hq => id_ne_nextId db q hq) rfl
  constructor
  · simp only [create_products, hchk, hde, Product.create, Option.getD_some]
  · simp only [get_a_product, hfind]

/-- Witness for claim C4: the spec scenario, creating the Fedora record in
an empty store. -/
theorem claim_C4_witness :
    create_products [] reqW =
        ([] ++ [{ Product.empty with
                    id := some (nextId []), name := "Fedora", description := "A red hat",
                    price := ⟨1250, 2⟩, available := true, category := .CLOTHS }],
         .response ⟨201,
           .record (Product.serialize { Product.empty with
             id := some (nextId []), name := "Fedora", description := "A red hat",
             price := ⟨1250, 2⟩, available := true, category := .CLOTHS }),
           some (location_url (nextId []))⟩) ∧
      get_a_product ([] ++ [{ Product.empty with
          id := some (nextId []), name := "Fedora", description := "A red hat",
          price := ⟨1250, 2⟩, available := true, category := .CLOTHS }]) (nextId []) =
        .response ⟨200,
          .record (Product.serialize { Product.empty with
            id := some (nextId []), name := "Fedora", description := "A red hat",
            price := ⟨1250, 2⟩, available := true, category := .CLOTHS }), none⟩ :=
  claim_C4_post_create [] reqW
    { Product.empty with
      id := none, name := "Fedora", description := "A red hat",
      price := ⟨1250, 2⟩, available := true, category := .CLOTHS } rfl rfl

/-- Claim C8: DELETE removes the matching record and answers 200 with a
confirmation message; with no match it answers 404 with a message carried
in a normal response body, not through the abort mechanism. -/
theorem claim_C8_delete_paths (db : Store) (i : Int) :
    (∀ p, Product.find db i = some p →
      delete_a_product db i =
          (Product.delete db p, .response ⟨200, .message "Product deleted.", none⟩) ∧
        Product.find (Product.delete db p) i = none) ∧
    (Product.find db i = none →
      delete_a_product db i =
        (db, .response ⟨404, .message "Product with given ID not found.", none⟩)) := by
  constructor
  · intro p hf
    have hid : p.id = some i := (find_mem_and_id db i p hf).2
    constructor
    · simp only [delete_a_product, hf]
    · rw [Product.delete, hid]
      exact find_filter_out db i
  · intro hf
    simp only [delete_a_product, hf]

/-- Witness for claim C8: deleting the one stored record, and the 404
answer on an empty store. -/
theorem claim_C8_witness :
    (delete_a_product [prodW] 1 =
        (Product.delete [prodW] prodW, .response ⟨200, .message "Product deleted.", none⟩) ∧
      Product.find (Product.delete [prodW] prodW) 1 = none) ∧
    delete_a_product [] 1 =
      ([], .response ⟨404, .message "Product with given ID not found.", none⟩) :=
  ⟨(claim_C8_delete_paths [prodW] 1).1 prodW rfl,
   (claim_C8_delete_paths [] 1).2 rfl⟩

theorem lookup_filterMap_absent (f : String → Option String) (ks : List String) (k : String)
    (hk : k ∉ ks) :
    List.lookup k (ks.filterMap (fun k2 => (f k2).map (fun v => (k2, v)))) = none := by
  induction ks with
  | nil => rfl
  | cons a ks ih =>
    have hka : k ≠ a := fun h => hk (h ▸ List.mem_cons_self a ks)
    have hk2 : k ∉ ks := fun h => hk (List.mem_cons_of_mem a h)
    cases hfa : f a with
    | none => simp only [List.filterMap_cons, hfa, Option.map_none', ih hk2]
    | some v =>
      simp only [List.filterMap_cons, hfa, Option.map_some', List.lookup,
        beq_eq_false_iff_ne.mpr hka, ih hk2]

theorem lookup_filterMap_mem (f : String → Option String) (ks : List String) (k : String)
    (hk : k ∈ ks) (hnd : ks.Nodup) :
    List.lookup k (ks.filterMap (fun k2 => (f k2).map (fun v => (k2, v)))) = f k := by
  induction ks with
  | nil => cases hk
  | cons a ks ih =>
    rcases List.mem_cons.mp hk with rfl | hmem
    · have hk2 : k ∉ ks := (List.nodup_cons.mp hnd).1
      cases hfa : f k with
      | none =>
        simp only [List.filterMap_cons, hfa, Option.map_none',
          lookup_filterMap_absent f ks k hk2]
      | some v =>
        simp only [List.filterMap_cons, hfa, Option.map_some', List.lookup, beq_self_eq_true]
    · have hnd2 := (List.nodup_cons.mp hnd).2
      have hka : k ≠ a := fun h => (List.nodup_cons.mp hnd).1 (h ▸ hmem)
      cases hfa : f a with
      | none => simp only [List.filterMap_cons, hfa, Option.map_none', ih hmem hnd2]
      | some v =>
        simp only [List.filterMap_cons, hfa, Option.map_some', List.lookup,
          beq_eq_false_iff_ne.mpr hka, ih hmem hnd2]

theorem presentArg_ne_empty (req : HttpRequest) (k : String) (v : String)
    (h : presentArg req k = some v) : (v == "") = false := by
  rw [presentArg] at h
  cases hg : getArg req k with
  | none => rw [hg] at h; cases h
  | some s =>
    simp only [hg] at h
    split at h
    · cases h
    · rename_i hs
      injection h with h2
      subst h2
      exact Bool.eq_false_iff.mpr hs

theorem presentArg_scrub (req : HttpRequest) (k : String)
    (hk : k ∈ ["name", "category", "available", "price"]) :
    presentArg (scrub_args req) k = presentArg req k := by
  have hnd : (["name", "category", "available", "price"] : List String).Nodup := by decide
  have hlk : getArg (scrub_args req) k = presentArg req k := by
    rw [getArg, scrub_args]
    exact lookup_filterMap_mem (fun k2 => presentArg req k2) _ k hk hnd
  rw [presentArg, hlk]
  cases hp : presentArg req k with
  | none => rfl
  | some v => simp [presentArg_ne_empty req k v hp]

/-- Claim C9: a filter supplied with an empty value is treated as absent —
the handler behaves exactly as on the request scrubbed down to the
non-empty filter values, so the next filter in precedence order applies;
and when every supplied filter value is empty, every record is
returned. -/
theorem claim_C9_empty_as_absent (db : Store) (req : HttpRequest) :
    list_products db req = list_products db (scrub_args req) ∧
    (presentArg req "name" = none → presentArg req "category" = none →
      presentArg req "available" = none → presentArg req "price" = none →
      list_products db req =
        .response ⟨200, .records ((Product.all db).map Product.serialize), none⟩) := by
  constructor
  · rw [list_products, list_products,
      presentArg_scrub req "name" (by decide), presentArg_scrub req "category" (by decide),
      presentArg_scrub req "available" (by decide), presentArg_scrub req "price" (by decide)]
  · intro h1 h2 h3 h4
    simp only [list_products, h1, h2, h3, h4]

/-- Witness for claim C9: a request whose name and category filters carry
empty values behaves as the scrubbed request and returns every record. -/
theorem claim_C9_witness :
    list_products [prodW] ⟨none, none, [("name", ""), ("category", "")]⟩ =
        list_products [prodW] (scrub_args ⟨none, none, [("name", ""), ("category", "")]⟩) ∧
      list_products [prodW] ⟨none, none, [("name", ""), ("category", "")]⟩ =
        .response ⟨200, .records ((Product.all [prodW]).map Product.serialize), none⟩ :=
  ⟨(claim_C9_empty_as_absent [prodW] ⟨none, none, [("name", ""), ("category", "")]⟩).1,
   (claim_C9_empty_as_absent [prodW] ⟨none, none, [("name", ""), ("category", "")]⟩).2
     rfl rfl rfl rfl⟩
